import Mathlib

/-!
A shallow embedding of the `clickhouse-orm` JavaScript repository, covering
the parts of the code that the verified properties below talk about:

* `src/lib/QueryBuilder.js` — the fluent SQL query builder (`select`, `from`,
  `join`, `where`, `handleComplexCondition`, `groupBy`, `having`, `orderBy`,
  `limit`, `offset`, `build`);
* `src/lib/Connection.js` — the `query` adapter that wraps client failures;
* `src/lib/Schema.js` (second half of `DataTypes.js` in this checkout) —
  `generateCreateTableSQL` / `generateColumnDefinition`;
* `src/lib/Model.js` — `findAll` / `findOne`.

JavaScript dynamic values that can appear in filter specifications are
modelled by the inductive type `JsVal`; JavaScript numbers are modelled as
integers (every value exercised by the repository is an integer), rendered in
decimal exactly as template-string interpolation renders them.  Fallible
operations (a `where` call that would raise a `TypeError`, column generation
that throws on a missing data type, the connection adapter) return `Except`.
-/

namespace ClickHouseORM

/-- One decimal digit as a character (`0`–`9` for `d < 10`). -/
def digitChar (d : Nat) : Char :=
  Char.ofNat (48 + d)

/-- Fuel-driven digit expansion: `fuel` bounds the number of digits, and any
fuel of at least `n + 1` is sufficient. -/
def natCharsAux : Nat → Nat → List Char
  | 0, _ => []
  | fuel + 1, n =>
    if n < 10 then [digitChar n]
    else natCharsAux fuel (n / 10) ++ [digitChar (n % 10)]

/-- Decimal digit string of a natural number, most significant digit first.
This is the rendering that JavaScript template interpolation `${n}` performs
on a non-negative integer. -/
def natChars (n : Nat) : List Char :=
  natCharsAux (n + 1) n

/-- Decimal rendering of an integer, as JavaScript interpolation renders an
integral number. -/
def intRepr : Int → String
  | Int.ofNat n => ⟨natChars n⟩
  | Int.negSucc n => ⟨'-' :: natChars (n + 1)⟩

/-- A JavaScript value as it may appear in a filter specification: a string,
an (integral) number, `null`, an array, or a plain object (a list of
key/value entries in insertion order). -/
inductive JsVal where
  | vstr (s : String)
  | vnum (n : Int)
  | vnull
  | varr (elems : List JsVal)
  | vobj (entries : List (String × JsVal))
deriving Repr

/-- JavaScript string coercion `${v}` of a value: strings render verbatim,
numbers in decimal, `null` as `"null"`, arrays as the comma-joined coercion
of their elements, plain objects as `"[object Object]"`. -/
def jsToString : JsVal → String
  | JsVal.vstr s => s
  | JsVal.vnum n => intRepr n
  | JsVal.vnull => "null"
  | JsVal.varr l => go l
  | JsVal.vobj _ => "[object Object]"
where
  /-- `Array.prototype.toString`: elements joined with `","`. -/
  go : List JsVal → String
  | [] => ""
  | [v] => jsToString v
  | v :: rest => jsToString v ++ "," ++ go rest

/-- `list.join(sep)` of JavaScript: the elements of the list interleaved with
the separator. -/
def joinSep (sep : String) : List String → String
  | [] => ""
  | [s] => s
  | s :: rest => s ++ sep ++ joinSep sep rest

/-- Concatenation of a list of strings (used for the rendered join clauses,
which the source appends one by one with `+=`). -/
def strConcat : List String → String
  | [] => ""
  | s :: rest => s ++ strConcat rest

/-- One join descriptor as stored by `QueryBuilder.join`:
`{ type, table, condition }`. -/
structure Join where
  type : String
  table : String
  condition : String
deriving Repr, DecidableEq

/-- The `this.query` state of `QueryBuilder` (`src/lib/QueryBuilder.js`,
constructor).  The JavaScript fields `from` and `where` are Lean keywords and
are embedded as `fromTable` and `whereConds`; `limit`/`offset` hold `null`
or a number. -/
structure Query where
  select : List String
  fromTable : String
  joins : List Join
  whereConds : List String
  groupBy : List String
  having : List String
  orderBy : List String
  limit : Option Int
  offset : Option Int
deriving Repr, DecidableEq

/-- The freshly constructed builder state (`constructor`). -/
def emptyQuery : Query :=
  { select := []
    fromTable := ""
    joins := []
    whereConds := []
    groupBy := []
    having := []
    orderBy := []
    limit := none
    offset := none }

/-- The argument of `select`/`groupBy`: a string, an array of strings, or any
other value (which the source ignores). -/
inductive FieldsArg where
  | str (s : String)
  | arr (l : List String)
  | other
deriving Repr, DecidableEq

namespace QueryBuilder

/-- `select(fields)`: a string argument replaces the column list with a
one-element list (`'*'` is kept as `['*']`, not comma-split), an array
argument replaces it wholesale, anything else is a no-op. -/
def select (fields : FieldsArg) (q : Query) : Query :=
  match fields with
  | FieldsArg.str s => { q with select := if s = "*" then ["*"] else [s] }
  | FieldsArg.arr l => { q with select := l }
  | FieldsArg.other => q

/-- `from(table)`: stores the source table, replacing any previous one. -/
def fromTable (table : String) (q : Query) : Query :=
  { q with fromTable := table }

/-- `join(table, condition, type = 'INNER')`: pushes a join descriptor. -/
def join (table condition : String) (type : String) (q : Query) : Query :=
  { q with joins := q.joins ++ [{ type := type, table := table, condition := condition }] }

/-- `leftJoin(table, condition)`. -/
def leftJoin (table condition : String) (q : Query) : Query :=
  join table condition "LEFT" q

/-- `rightJoin(table, condition)`. -/
def rightJoin (table condition : String) (q : Query) : Query :=
  join table condition "RIGHT" q

/-- Push one WHERE fragment. -/
def pushWhere (frag : String) (q : Query) : Query :=
  { q with whereConds := q.whereConds ++ [frag] }

/-- `handleComplexCondition(field, condition)`: iterate the operator map in
insertion order; recognized operator tags push one rendered fragment each,
unrecognized tags fall through the `switch` without emitting anything.  For
`in`/`notIn` the source calls `value.map`, which raises a `TypeError` when
the value is not an array. -/
def handleComplexCondition (field : String) (condition : List (String × JsVal))
    (q : Query) : Except String Query :=
  match condition with
  | [] => Except.ok q
  | (operator, value) :: rest =>
    match operator with
    | "gt" => handleComplexCondition field rest
        (pushWhere (field ++ " > '" ++ jsToString value ++ "'") q)
    | "gte" => handleComplexCondition field rest
        (pushWhere (field ++ " >= '" ++ jsToString value ++ "'") q)
    | "lt" => handleComplexCondition field rest
        (pushWhere (field ++ " < '" ++ jsToString value ++ "'") q)
    | "lte" => handleComplexCondition field rest
        (pushWhere (field ++ " <= '" ++ jsToString value ++ "'") q)
    | "ne" => handleComplexCondition field rest
        (pushWhere (field ++ " != '" ++ jsToString value ++ "'") q)
    | "like" => handleComplexCondition field rest
        (pushWhere (field ++ " LIKE '" ++ jsToString value ++ "'") q)
    | "in" =>
      match value with
      | JsVal.varr l => handleComplexCondition field rest
          (pushWhere (field ++ " IN (" ++
            joinSep ", " (l.map (fun v => "'" ++ jsToString v ++ "'")) ++ ")") q)
      | _ => Except.error "TypeError: value.map is not a function"
    | "notIn" =>
      match value with
      | JsVal.varr l => handleComplexCondition field rest
          (pushWhere (field ++ " NOT IN (" ++
            joinSep ", " (l.map (fun v => "'" ++ jsToString v ++ "'")) ++ ")") q)
      | _ => Except.error "TypeError: value.map is not a function"
    | _ => handleComplexCondition field rest q

/-- Dispatch of one `[field, value]` entry of a filter object inside
`where`: arrays render as `IN (...)`, non-null objects go through
`handleComplexCondition`, everything else renders as `field = 'value'`. -/
def whereEntry (field : String) (value : JsVal) (q : Query) : Except String Query :=
  match value with
  | JsVal.varr l =>
    Except.ok (pushWhere (field ++ " IN (" ++
      joinSep ", " (l.map (fun v => "'" ++ jsToString v ++ "'")) ++ ")") q)
  | JsVal.vobj entries => handleComplexCondition field entries q
  | v => Except.ok (pushWhere (field ++ " = '" ++ jsToString v ++ "'") q)

/-- Fold of `whereEntry` over the entries of a filter object, in insertion
order. -/
def whereEntries (entries : List (String × JsVal)) (q : Query) : Except String Query :=
  match entries with
  | [] => Except.ok q
  | (field, value) :: rest => do
    let q' ← whereEntry field value q
    whereEntries rest q'

/-- The argument of `where`: a raw condition string, a filter object,
`null` (for which `Object.entries` would raise a `TypeError`), or any other
value (ignored by the source's `typeof` dispatch). -/
inductive WhereArg where
  | str (s : String)
  | obj (entries : List (String × JsVal))
  | nullArg
  | other
deriving Repr

/-- `where(conditions)`: a string is pushed verbatim; an object's entries are
translated one by one; `null` raises (it passes the `typeof` check and then
crashes `Object.entries`); other values are ignored. -/
def «where» (conditions : WhereArg) (q : Query) : Except String Query :=
  match conditions with
  | WhereArg.str s => Except.ok (pushWhere s q)
  | WhereArg.obj entries => whereEntries entries q
  | WhereArg.nullArg => Except.error "TypeError: Object.entries called on null"
  | WhereArg.other => Except.ok q

/-- `groupBy(fields)`: same shape dispatch as `select`, always replacing. -/
def groupBy (fields : FieldsArg) (q : Query) : Query :=
  match fields with
  | FieldsArg.str s => { q with groupBy := [s] }
  | FieldsArg.arr l => { q with groupBy := l }
  | FieldsArg.other => q

/-- `having(conditions)`: only a string argument is pushed; anything else is
ignored. -/
def having (conditions : FieldsArg) (q : Query) : Query :=
  match conditions with
  | FieldsArg.str s => { q with having := q.having ++ [s] }
  | _ => q

/-- `orderBy(field, direction = 'ASC')`: a string field pushes
`field direction`; an array field REPLACES the accumulated order-by list;
anything else is ignored. -/
def orderBy (field : FieldsArg) (direction : String) (q : Query) : Query :=
  match field with
  | FieldsArg.str s => { q with orderBy := q.orderBy ++ [s ++ " " ++ direction] }
  | FieldsArg.arr l => { q with orderBy := l }
  | FieldsArg.other => q

/-- `limit(count)`. -/
def limit (count : Int) (q : Query) : Query :=
  { q with limit := some count }

/-- `offset(count)`. -/
def offset (count : Int) (q : Query) : Query :=
  { q with offset := some count }

/-- Rendering of one join descriptor inside `build`:
`` ` ${join.type} JOIN ${join.table} ON ${join.condition}` ``. -/
def joinClause (j : Join) : String :=
  " " ++ j.type ++ " JOIN " ++ j.table ++ " ON " ++ j.condition

/-- The part of `build` assembled before the WHERE clause: the SELECT/FROM
head plus the join clauses in insertion order. -/
def buildHead (q : Query) : String :=
  "SELECT " ++ joinSep ", " q.select ++ " FROM " ++ q.fromTable ++
    strConcat (q.joins.map joinClause)

/-- The part of `build` assembled after the WHERE clause: GROUP BY, HAVING,
ORDER BY, LIMIT and OFFSET, each omitted when its backing state is
empty/null. -/
def buildTail (q : Query) : String :=
  (if q.groupBy.isEmpty then "" else " GROUP BY " ++ joinSep ", " q.groupBy) ++
  (if q.having.isEmpty then "" else " HAVING " ++ joinSep " AND " q.having) ++
  (if q.orderBy.isEmpty then "" else " ORDER BY " ++ joinSep ", " q.orderBy) ++
  (match q.limit with
   | none => ""
   | some n => " LIMIT " ++ intRepr n) ++
  (match q.offset with
   | none => ""
   | some n => " OFFSET " ++ intRepr n)

/-- `build()`: renders the stored state into one SQL string, clause by
clause in the fixed order of the source. -/
def build (q : Query) : String :=
  buildHead q ++
  (if q.whereConds.isEmpty then "" else " WHERE " ++ joinSep " AND " q.whereConds) ++
  buildTail q

/-- The `build` method as a state transition on the builder: it returns the
rendered string and leaves the receiver's state exactly as it was (the
source only reads `this.query`). -/
def buildStep (q : Query) : String × Query :=
  (build q, q)

end QueryBuilder

/-- The operator tags recognized by `handleComplexCondition`'s `switch`. -/
def recognizedOps : List String :=
  ["gt", "gte", "lt", "lte", "ne", "like", "in", "notIn"]

/-- The specification's operator-to-SQL table (spec §4.1), written from the
spec's words for comparison against `handleComplexCondition`: one rendered
fragment per recognized tag, `none` for an unrecognized tag (and for an
`in`/`notIn` entry whose value is not a sequence, where the code instead
raises). -/
def specOpFragment (field : String) (entry : String × JsVal) : Option String :=
  match entry.1 with
  | "gt" => some (field ++ " > '" ++ jsToString entry.2 ++ "'")
  | "gte" => some (field ++ " >= '" ++ jsToString entry.2 ++ "'")
  | "lt" => some (field ++ " < '" ++ jsToString entry.2 ++ "'")
  | "lte" => some (field ++ " <= '" ++ jsToString entry.2 ++ "'")
  | "ne" => some (field ++ " != '" ++ jsToString entry.2 ++ "'")
  | "like" => some (field ++ " LIKE '" ++ jsToString entry.2 ++ "'")
  | "in" =>
    match entry.2 with
    | JsVal.varr l =>
      some (field ++ " IN (" ++ joinSep ", " (l.map (fun v => "'" ++ jsToString v ++ "'")) ++ ")")
    | _ => none
  | "notIn" =>
    match entry.2 with
    | JsVal.varr l =>
      some (field ++ " NOT IN (" ++ joinSep ", " (l.map (fun v => "'" ++ jsToString v ++ "'")) ++ ")")
    | _ => none
  | _ => none

namespace Connection

/-- `Connection.query(sql, options)` (`src/lib/Connection.js`): connect, hand
the SQL to the external client exactly once, and wrap any thrown failure
(from `connect` or from the client) in a message prefixed with
`'Query execution failed: '`.  The external client is an oracle
`clientQuery`; the JSON-vs-raw result handling of the source is abstracted
into the result type `α`.  The second component of the result counts how many
times the external client's `query` was invoked (the source contains no
retry, so it is `1` whenever `connect` succeeded and `0` otherwise). -/
def query {α : Type} (connectRes : Except String Unit)
    (clientQuery : String → Except String α) (sql : String) :
    Except String α × Nat :=
  match connectRes with
  | Except.error e => (Except.error ("Query execution failed: " ++ e), 0)
  | Except.ok _ =>
    match clientQuery sql with
    | Except.error e => (Except.error ("Query execution failed: " ++ e), 1)
    | Except.ok r => (Except.ok r, 1)

end Connection

/-- A non-string default value of a column definition (rendered without
quotes by the source); the repository only ever uses strings and numbers. -/
inductive JsDefault where
  | jstr (s : String)
  | jnum (n : Int)
deriving Repr, DecidableEq

/-- An object-shaped attribute definition:
`{ type, defaultValue, codec, comment, primaryKey, index }`.  Absent
JavaScript properties are `none`/`false`. -/
structure ObjDef where
  type : Option String
  defaultValue : Option JsDefault
  codec : Option String
  comment : Option String
  primaryKey : Bool
  index : Bool
deriving Repr, DecidableEq

/-- An attribute definition is either a bare type string or an object. -/
inductive AttrDef where
  | strDef (s : String)
  | objDef (d : ObjDef)
deriving Repr, DecidableEq

/-- `definition.primaryKey` truthiness: `undefined` (hence falsy) on a bare
string definition. -/
def attrPrimaryKey : AttrDef → Bool
  | AttrDef.strDef _ => false
  | AttrDef.objDef d => d.primaryKey

/-- The model options consulted by `generateCreateTableSQL`:
`engine`, `orderBy`, `settings`. -/
structure ModelOptions where
  engine : Option String
  orderBy : Option String
  settings : Option (List (String × String))
deriving Repr, DecidableEq

namespace Schema

/-- `generateColumnDefinition(fieldName, definition)`: a string definition is
used verbatim after the field name; an object definition requires a `type`
(throwing otherwise) and then appends DEFAULT / CODEC / COMMENT pieces.
String defaults are single-quoted, other defaults are interpolated bare;
`codec`/`comment` are truthiness-guarded (an empty string is falsy). -/
def generateColumnDefinition (fieldName : String) : AttrDef → Except String String
  | AttrDef.strDef s => Except.ok (fieldName ++ " " ++ s)
  | AttrDef.objDef d =>
    match d.type with
    | none => Except.error ("Data type is required for field " ++ fieldName)
    | some t =>
      Except.ok (fieldName ++ " " ++ t ++
        (match d.defaultValue with
         | none => ""
         | some (JsDefault.jstr s) => " DEFAULT '" ++ s ++ "'"
         | some (JsDefault.jnum n) => " DEFAULT " ++ intRepr n) ++
        (match d.codec with
         | none => ""
         | some c => if c = "" then "" else " CODEC(" ++ c ++ ")") ++
        (match d.comment with
         | none => ""
         | some c => if c = "" then "" else " COMMENT '" ++ c ++ "'"))

/-- The column-definition loop of `generateCreateTableSQL` (the `indexes`
array that the same loop collects is never used afterwards and is omitted). -/
def genColumns (attrs : List (String × AttrDef)) : Except String (List String) :=
  attrs.mapM (fun p => generateColumnDefinition p.1 p.2)

/-- The `primaryKey` variable after the attribute loop: each attribute with a
truthy `primaryKey` flag overwrites it, so the last one wins. -/
def lastPrimaryKey (attrs : List (String × AttrDef)) : Option String :=
  attrs.foldl (fun acc p => if attrPrimaryKey p.2 then some p.1 else acc) none

/-- `model.options.engine || 'MergeTree()'` (an empty string is falsy). -/
def engineOf (opts : ModelOptions) : String :=
  match opts.engine with
  | some e => if e = "" then "MergeTree()" else e
  | none => "MergeTree()"

/-- Truthiness of `model.options.orderBy` (an empty string is falsy). -/
def truthyOrderBy (opts : ModelOptions) : Option String :=
  match opts.orderBy with
  | some s => if s = "" then none else some s
  | none => none

/-- `Object.keys(model.attributes)[0]`, which is `undefined` (interpolating
as `"undefined"`) when the model has no attributes. -/
def firstColumnName (attrs : List (String × AttrDef)) : String :=
  match attrs.head? with
  | some p => p.1
  | none => "undefined"

/-- The sort key of the generated ORDER BY clause: a primary key wins over
an explicit `options.orderBy`, which wins over the first attribute name. -/
def orderByKey (attrs : List (String × AttrDef)) (opts : ModelOptions) : String :=
  match lastPrimaryKey attrs with
  | some pk => pk
  | none =>
    match truthyOrderBy opts with
    | some o => o
    | none => firstColumnName attrs

/-- The `orderBy` clause variable of `generateCreateTableSQL`: every branch
of the source's if/else chain assigns `ORDER BY <key>`, so the clause is
never null. -/
def orderByClause (attrs : List (String × AttrDef)) (opts : ModelOptions) : String :=
  "ORDER BY " ++ orderByKey attrs opts

/-- The SETTINGS tail: present whenever `model.options.settings` is set
(any object is truthy, even an empty one). -/
def settingsText (opts : ModelOptions) : String :=
  match opts.settings with
  | none => ""
  | some l => "\nSETTINGS " ++ joinSep ", " (l.map (fun p => p.1 ++ " = " ++ p.2))

/-- `generateCreateTableSQL(model, options)`: column definitions joined with
`',\n  '`, the engine, the always-present ORDER BY clause (the source guards
it with `if (orderBy)`, but every branch assigns a non-empty string), and the
optional SETTINGS tail.  `ifNotExists` stands for the source's
`options.ifNotExists !== false`. -/
def generateCreateTableSQL (tableName : String) (attrs : List (String × AttrDef))
    (opts : ModelOptions) (ifNotExists : Bool) : Except String String := do
  let columns ← genColumns attrs
  pure ("CREATE TABLE" ++ (if ifNotExists then " IF NOT EXISTS" else "") ++
    " " ++ tableName ++ " (\n  " ++ joinSep ",\n  " columns ++ "\n) ENGINE = " ++
    engineOf opts ++ "\n" ++ orderByClause attrs opts ++ settingsText opts)

end Schema

/-- The subset of `findAll` options that reach the query builder:
`attributes`, `where`, `orderBy`, `limit`, `offset`. -/
structure FindOptions where
  attributes : Option FieldsArg
  whereArg : Option QueryBuilder.WhereArg
  orderBy : Option FieldsArg
  limit : Option Int
  offset : Option Int

namespace Model

/-- `options.attributes || '*'`: a missing or falsy (empty-string)
`attributes` value falls back to `'*'`. -/
def effectiveAttributes (a : Option FieldsArg) : FieldsArg :=
  match a with
  | some (FieldsArg.str s) => if s = "" then FieldsArg.str "*" else FieldsArg.str s
  | some a => a
  | none => FieldsArg.str "*"

/-- JavaScript truthiness of the `options.where` guard: an empty string and
`null` are falsy; objects are always truthy. -/
def whereTruthy : QueryBuilder.WhereArg → Bool
  | QueryBuilder.WhereArg.str s => s ≠ ""
  | QueryBuilder.WhereArg.nullArg => false
  | _ => true

/-- JavaScript truthiness of the `options.orderBy` guard: an empty string is
falsy; arrays are always truthy. -/
def orderByTruthy : FieldsArg → Bool
  | FieldsArg.str s => s ≠ ""
  | _ => true

/-- The builder state that `Model.findAll` constructs before executing:
`select(options.attributes || '*')`, `from(tableName)`, then the
truthiness-guarded `where` / `orderBy` / `limit` / `offset` applications
(`limit: 0` or `offset: 0` is falsy and skipped). -/
def findAllQuery (tableName : String) (o : FindOptions) : Except String Query := do
  let q := QueryBuilder.fromTable tableName
    (QueryBuilder.select (effectiveAttributes o.attributes) emptyQuery)
  let q ←
    match o.whereArg with
    | some w => if whereTruthy w then QueryBuilder.«where» w q else Except.ok q
    | none => Except.ok q
  let q :=
    match o.orderBy with
    | some f => if orderByTruthy f then QueryBuilder.orderBy f "ASC" q else q
    | none => q
  let q :=
    match o.limit with
    | some n => if n = 0 then q else QueryBuilder.limit n q
    | none => q
  let q :=
    match o.offset with
    | some n => if n = 0 then q else QueryBuilder.offset n q
    | none => q
  pure q

/-- `Model.findAll(options)`: build the query, execute it through the
connection (modelled by the oracle `exec`, whose `Option` result stands for
the presence or absence of a truthy `data` field on the parsed response),
and return `result.data || []`. -/
def findAll {Row : Type} (exec : String → Except String (Option (List Row)))
    (tableName : String) (o : FindOptions) : Except String (List Row) := do
  let q ← findAllQuery tableName o
  let r ← exec (QueryBuilder.build q)
  pure (r.getD [])

/-- `Model.findOne(options)`: delegate to `findAll` with the same options but
`limit` overridden to `1`, and return `results[0] || null` (rows are objects,
hence truthy, so this is the optional head of the result list). -/
def findOne {Row : Type} (exec : String → Except String (Option (List Row)))
    (tableName : String) (o : FindOptions) : Except String (Option Row) := do
  let rows ← findAll exec tableName { o with limit := some 1 }
  pure rows.head?

end Model

/-- An entry list is well-shaped when every `in`/`notIn` entry carries an
array value (otherwise the source raises a `TypeError`). -/
def WellShaped (entries : List (String × JsVal)) : Prop :=
  ∀ p ∈ entries, (p.1 = "in" ∨ p.1 = "notIn") → ∃ l, p.2 = JsVal.varr l

/-- A scalar filter value: not an array and not a plain object. -/
def isScalar : JsVal → Prop
  | JsVal.varr _ => False
  | JsVal.vobj _ => False
  | _ => True

/-- All the caller-supplied strings stored in a builder state: the selected
columns, the source table, the join descriptors' pieces, and the accumulated
WHERE / GROUP BY / HAVING / ORDER BY entries. -/
def userStrings (q : Query) : List String :=
  q.select ++ q.fromTable ::
    (q.joins.map Join.type ++ q.joins.map Join.table ++ q.joins.map Join.condition ++
      q.whereConds ++ q.groupBy ++ q.having ++ q.orderBy)

end ClickHouseORM

namespace ClickHouseORM

lemma specOpFragment_unrecognized (field : String) (op : String) (v : JsVal)
    (h : op ∉ recognizedOps) : specOpFragment field (op, v) = none := by
  simp only [recognizedOps, List.mem_cons, List.not_mem_nil, or_false, not_or] at h
  obtain ⟨h1, h2, h3, h4, h5, h6, h7, h8⟩ := h
  unfold specOpFragment
  split <;> simp_all

lemma handleComplexCondition_eq (field : String) :
    ∀ (entries : List (String × JsVal)) (q : Query), WellShaped entries →
      QueryBuilder.handleComplexCondition field entries q =
        Except.ok { q with
          whereConds := q.whereConds ++ entries.filterMap (specOpFragment field) }
  | [], q, _ => by
    simp [QueryBuilder.handleComplexCondition]
  | (op, v) :: rest, q, h => by
    have hrest : WellShaped rest := fun p hp => h p (List.mem_cons_of_mem _ hp)
    have hin := h (op, v) (List.mem_cons_self _ _)
    simp only [QueryBuilder.handleComplexCondition]
    split
    case _ => -- gt
      rw [handleComplexCondition_eq field rest _ hrest]
      simp [QueryBuilder.pushWhere, specOpFragment, List.filterMap_cons]
    case _ =>
      rw [handleComplexCondition_eq field rest _ hrest]
      simp [QueryBuilder.pushWhere, specOpFragment, List.filterMap_cons]
    case _ =>
      rw [handleComplexCondition_eq field rest _ hrest]
      simp [QueryBuilder.pushWhere, specOpFragment, List.filterMap_cons]
    case _ =>
      rw [handleComplexCondition_eq field rest _ hrest]
      simp [QueryBuilder.pushWhere, specOpFragment, List.filterMap_cons]
    case _ =>
      rw [handleComplexCondition_eq field rest _ hrest]
      simp [QueryBuilder.pushWhere, specOpFragment, List.filterMap_cons]
    case _ =>
      rw [handleComplexCondition_eq field rest _ hrest]
      simp [QueryBuilder.pushWhere, specOpFragment, List.filterMap_cons]
    case _ => -- in, array value
      split
      case _ l heq =>
        rw [handleComplexCondition_eq field rest _ hrest]
        simp [QueryBuilder.pushWhere, specOpFragment, List.filterMap_cons]
      case _ hne =>
        exfalso
        obtain ⟨l, hl⟩ := hin (Or.inl rfl)
        exact hne l hl
    case _ => -- notIn, array value
      split
      case _ l heq =>
        rw [handleComplexCondition_eq field rest _ hrest]
        simp [QueryBuilder.pushWhere, specOpFragment, List.filterMap_cons]
      case _ hne =>
        exfalso
        obtain ⟨l, hl⟩ := hin (Or.inr rfl)
        exact hne l hl
    case _ h1 h2 h3 h4 h5 h6 h7 h8 => -- unrecognized tag
      rw [handleComplexCondition_eq field rest _ hrest]
      rw [List.filterMap_cons,
        specOpFragment_unrecognized field op v (by
          simp only [recognizedOps, List.mem_cons, List.not_mem_nil, or_false, not_or]
          exact ⟨h1, h2, h3, h4, h5, h6, h7, h8⟩)]

lemma whereEntry_scalar (field : String) (v : JsVal) (q : Query) (h : isScalar v) :
    QueryBuilder.whereEntry field v q =
      Except.ok (QueryBuilder.pushWhere (field ++ " = '" ++ jsToString v ++ "'") q) := by
  cases v <;> simp [isScalar] at h ⊢ <;> rfl

lemma whereEntry_array (field : String) (l : List JsVal) (q : Query) :
    QueryBuilder.whereEntry field (JsVal.varr l) q =
      Except.ok (QueryBuilder.pushWhere
        (field ++ " IN (" ++ joinSep ", " (l.map (fun v => "'" ++ jsToString v ++ "'")) ++ ")") q) :=
  rfl

lemma pushWhere_conds (frag : String) (q : Query) :
    (QueryBuilder.pushWhere frag q).whereConds = q.whereConds ++ [frag] := rfl

lemma exists_append_trans {a b c : List String} (t1 : List String)
    (h1 : b = a ++ t1) (h2 : ∃ t2, c = b ++ t2) : ∃ t, c = a ++ t := by
  obtain ⟨t2, ht2⟩ := h2
  exact ⟨t1 ++ t2, by rw [ht2, h1, List.append_assoc]⟩

lemma handleComplexCondition_conds (field : String) :
    ∀ (entries : List (String × JsVal)) (q q' : Query),
      QueryBuilder.handleComplexCondition field entries q = Except.ok q' →
      ∃ t, q'.whereConds = q.whereConds ++ t
  | [], q, q', h => by
    simp only [QueryBuilder.handleComplexCondition, Except.ok.injEq] at h
    exact ⟨[], by simp [← h]⟩
  | (op, v) :: rest, q, q', h => by
    simp only [QueryBuilder.handleComplexCondition] at h
    split at h <;>
      first
      | exact exists_append_trans _ rfl (handleComplexCondition_conds field rest _ _ h)
      | exact handleComplexCondition_conds field rest _ _ h
      | (split at h <;>
          first
          | exact exists_append_trans _ rfl (handleComplexCondition_conds field rest _ _ h)
          | simp at h)

lemma whereEntry_conds (field : String) (v : JsVal) (q q' : Query)
    (h : QueryBuilder.whereEntry field v q = Except.ok q') :
    ∃ t, q'.whereConds = q.whereConds ++ t := by
  cases v <;>
    simp only [QueryBuilder.whereEntry, Except.ok.injEq] at h
  case varr l =>
    exact ⟨_, by rw [← h, pushWhere_conds]⟩
  case vobj entries =>
    exact handleComplexCondition_conds field entries q q' h
  all_goals exact ⟨_, by rw [← h, pushWhere_conds]⟩

lemma whereEntries_conds :
    ∀ (entries : List (String × JsVal)) (q q' : Query),
      QueryBuilder.whereEntries entries q = Except.ok q' →
      ∃ t, q'.whereConds = q.whereConds ++ t
  | [], q, q', h => by
    simp only [QueryBuilder.whereEntries, Except.ok.injEq] at h
    exact ⟨[], by simp [← h]⟩
  | (field, v) :: rest, q, q', h => by
    simp only [QueryBuilder.whereEntries] at h
    cases he : QueryBuilder.whereEntry field v q with
    | error e => rw [he] at h; simp [Bind.bind, Except.bind] at h
    | ok q1 =>
      rw [he] at h
      simp only [Bind.bind, Except.bind] at h
      obtain ⟨t1, ht1⟩ := whereEntry_conds field v q q1 he
      obtain ⟨t2, ht2⟩ := whereEntries_conds rest q1 q' h
      exact ⟨t1 ++ t2, by simp [ht2, ht1]⟩

/-- Every successful `where` call only appends to the accumulated WHERE
fragments. -/
lemma where_conds (c : QueryBuilder.WhereArg) (q q' : Query)
    (h : QueryBuilder.«where» c q = Except.ok q') :
    ∃ t, q'.whereConds = q.whereConds ++ t := by
  cases c <;> simp only [QueryBuilder.«where», Except.ok.injEq] at h
  case str s => exact ⟨_, by rw [← h, pushWhere_conds]⟩
  case obj entries => exact whereEntries_conds entries q q' h
  case nullArg => exact absurd h (by simp)
  case other => exact ⟨[], by simp [← h]⟩

/-- When at least one WHERE fragment is stored, `build` splices
`' WHERE '` followed by the fragments joined with `' AND '` between the head
and the tail of the statement. -/
lemma build_where_decomp (q : Query) (h : q.whereConds ≠ []) :
    QueryBuilder.build q =
      QueryBuilder.buildHead q ++ (" WHERE " ++ joinSep " AND " q.whereConds) ++
        QueryBuilder.buildTail q := by
  unfold QueryBuilder.build
  rw [if_neg]
  simpa using h

lemma digitChar_mem (d : Nat) (h : d < 10) : digitChar d ∈ "0123456789".data := by
  interval_cases d <;> decide

lemma natCharsAux_mem :
    ∀ (fuel n : Nat) (c : Char), c ∈ natCharsAux fuel n → c ∈ "0123456789".data
  | 0, n, c, h => by simp [natCharsAux] at h
  | fuel + 1, n, c, h => by
    simp only [natCharsAux] at h
    split at h
    · next hlt =>
      simp only [List.mem_singleton] at h
      exact h ▸ digitChar_mem n hlt
    · rcases List.mem_append.mp h with h' | h'
      · exact natCharsAux_mem fuel (n / 10) c h'
      · simp only [List.mem_singleton] at h'
        exact h' ▸ digitChar_mem (n % 10) (Nat.mod_lt _ (by norm_num))

lemma intRepr_mem (i : Int) (c : Char) (h : c ∈ (intRepr i).data) :
    c ∈ "-0123456789".data := by
  have hsub : ∀ x, x ∈ "0123456789".data → x ∈ "-0123456789".data := by decide
  cases i with
  | ofNat n => exact hsub c (natCharsAux_mem _ _ _ h)
  | negSucc n =>
    rcases List.mem_cons.mp h with h' | h'
    · rw [h']; decide
    · exact hsub c (natCharsAux_mem _ _ _ h')

lemma mem_joinSep :
    ∀ (sep : String) (l : List String) (c : Char), c ∈ (joinSep sep l).data →
      c ∈ sep.data ∨ ∃ s ∈ l, c ∈ s.data
  | sep, [], c, h => by simp [joinSep] at h
  | sep, [s], c, h => Or.inr ⟨s, by simp, h⟩
  | sep, s :: s' :: rest, c, h => by
    simp only [joinSep, String.data_append, List.mem_append] at h
    rcases h with (h | h) | h
    · exact Or.inr ⟨s, by simp, h⟩
    · exact Or.inl h
    · rcases mem_joinSep sep (s' :: rest) c h with h' | ⟨u, hu, hcu⟩
      · exact Or.inl h'
      · exact Or.inr ⟨u, List.mem_cons_of_mem _ hu, hcu⟩

lemma mem_strConcat :
    ∀ (l : List String) (c : Char), c ∈ (strConcat l).data → ∃ s ∈ l, c ∈ s.data
  | [], c, h => by simp [strConcat] at h
  | s :: rest, c, h => by
    simp only [strConcat, String.data_append, List.mem_append] at h
    rcases h with h | h
    · exact ⟨s, by simp, h⟩
    · rcases mem_strConcat rest c h with ⟨u, hu, hcu⟩
      exact ⟨u, List.mem_cons_of_mem _ hu, hcu⟩

lemma not_mem_buildHead (q : Query) (c : Char)
    (hu : ∀ s ∈ userStrings q, c ∉ s.data)
    (hfix : c ∉ "SELECT , FROM ".data)
    (hj : q.joins = [] ∨ c ∉ " JOIN  ON ".data) :
    c ∉ (QueryBuilder.buildHead q).data := by
  intro hc
  have hfix' : ∀ (t : String), (∀ x ∈ t.data, x ∈ "SELECT , FROM ".data) →
      c ∉ t.data := fun t ht hct => hfix (ht c hct)
  simp only [QueryBuilder.buildHead, String.data_append, List.mem_append] at hc
  rcases hc with (((hc | hc) | hc) | hc) | hc
  · exact hfix' "SELECT " (by decide) hc
  · rcases mem_joinSep _ _ _ hc with hc | ⟨s, hs, hcs⟩
    · exact hfix' ", " (by decide) hc
    · exact hu s (by simp [userStrings, hs]) hcs
  · exact hfix' " FROM " (by decide) hc
  · exact hu q.fromTable (by simp [userStrings]) hc
  · rcases mem_strConcat _ _ hc with ⟨s, hs, hcs⟩
    rcases List.mem_map.mp hs with ⟨j, hj', rfl⟩
    rcases hj with hj | hj
    · rw [hj] at hj'; simp at hj'
    have hjfix : ∀ (t : String), (∀ x ∈ t.data, x ∈ " JOIN  ON ".data) →
        c ∉ t.data := fun t ht hct => hj (ht c hct)
    simp only [QueryBuilder.joinClause, String.data_append, List.mem_append] at hcs
    rcases hcs with ((((hc | hc) | hc) | hc) | hc) | hc
    · exact hjfix " " (by decide) hc
    · exact hu j.type (by
        simp only [userStrings, List.mem_append, List.mem_cons]
        exact Or.inr (Or.inr (Or.inl (Or.inl (Or.inl (Or.inl (Or.inl
          (Or.inl (List.mem_map_of_mem _ hj'))))))))) hc
    · exact hjfix " JOIN " (by decide) hc
    · exact hu j.table (by
        simp only [userStrings, List.mem_append, List.mem_cons]
        exact Or.inr (Or.inr (Or.inl (Or.inl (Or.inl (Or.inl (Or.inl
          (Or.inr (List.mem_map_of_mem _ hj'))))))))) hc
    · exact hjfix " ON " (by decide) hc
    · exact hu j.condition (by
        simp only [userStrings, List.mem_append, List.mem_cons]
        exact Or.inr (Or.inr (Or.inl (Or.inl (Or.inl (Or.inl (Or.inr
          (List.mem_map_of_mem _ hj')))))))) hc

lemma not_mem_clauseText (kw sep : String) (l : List String) (c : Char)
    (hl : ∀ s ∈ l, c ∉ s.data)
    (h : l = [] ∨ (c ∉ kw.data ∧ c ∉ sep.data)) :
    c ∉ (if l.isEmpty then "" else kw ++ joinSep sep l).data := by
  intro hc
  cases hqc : l with
  | nil => rw [hqc] at hc; simp at hc
  | cons a t =>
    rw [hqc] at hc
    rcases h with h | ⟨hkw, hsep⟩
    · rw [h] at hqc; cases hqc
    simp only [List.isEmpty_cons, if_neg, Bool.false_eq_true, not_false_eq_true,
      if_false, String.data_append, List.mem_append] at hc
    rcases hc with hc | hc
    · exact hkw hc
    · rcases mem_joinSep _ _ _ hc with hc | ⟨s, hs, hcs⟩
      · exact hsep hc
      · exact hl s (hqc ▸ hs) hcs

lemma not_mem_numClause (kw : String) (o : Option Int) (c : Char)
    (h : o = none ∨ (c ∉ kw.data ∧ c ∉ "-0123456789".data)) :
    c ∉ (match o with | none => "" | some n => kw ++ intRepr n).data := by
  intro hc
  cases o with
  | none => simp at hc
  | some n =>
    rcases h with h | ⟨hkw, hnum⟩
    · cases h
    simp only [String.data_append, List.mem_append] at hc
    rcases hc with hc | hc
    · exact hkw hc
    · exact hnum (intRepr_mem n c hc)

lemma not_mem_buildTail (q : Query) (c : Char)
    (hu : ∀ s ∈ userStrings q, c ∉ s.data)
    (hg : q.groupBy = [] ∨ c ∉ " GROUP BY , ".data)
    (hh : q.having = [] ∨ c ∉ " HAVING  AND ".data)
    (ho : q.orderBy = [] ∨ c ∉ " ORDER BY , ".data)
    (hl : q.limit = none ∨ c ∉ " LIMIT -0123456789".data)
    (hoff : q.offset = none ∨ c ∉ " OFFSET -0123456789".data) :
    c ∉ (QueryBuilder.buildTail q).data := by
  intro hc
  simp only [QueryBuilder.buildTail, String.data_append, List.mem_append] at hc
  rcases hc with (((hc | hc) | hc) | hc) | hc
  · refine not_mem_clauseText " GROUP BY " ", " q.groupBy c
      (fun s hs => hu s (by simp [userStrings, hs])) ?_ hc
    rcases hg with h | h
    · exact Or.inl h
    · exact Or.inr ⟨fun hx => h ((by decide : ∀ x ∈ " GROUP BY ".data,
        x ∈ " GROUP BY , ".data) c hx),
        fun hx => h ((by decide : ∀ x ∈ ", ".data, x ∈ " GROUP BY , ".data) c hx)⟩
  · refine not_mem_clauseText " HAVING " " AND " q.having c
      (fun s hs => hu s (by simp [userStrings, hs])) ?_ hc
    rcases hh with h | h
    · exact Or.inl h
    · exact Or.inr ⟨fun hx => h ((by decide : ∀ x ∈ " HAVING ".data,
        x ∈ " HAVING  AND ".data) c hx),
        fun hx => h ((by decide : ∀ x ∈ " AND ".data, x ∈ " HAVING  AND ".data) c hx)⟩
  · refine not_mem_clauseText " ORDER BY " ", " q.orderBy c
      (fun s hs => hu s (by simp [userStrings, hs])) ?_ hc
    rcases ho with h | h
    · exact Or.inl h
    · exact Or.inr ⟨fun hx => h ((by decide : ∀ x ∈ " ORDER BY ".data,
        x ∈ " ORDER BY , ".data) c hx),
        fun hx => h ((by decide : ∀ x ∈ ", ".data, x ∈ " ORDER BY , ".data) c hx)⟩
  · refine not_mem_numClause " LIMIT " q.limit c ?_ hc
    rcases hl with h | h
    · exact Or.inl h
    · exact Or.inr ⟨fun hx => h ((by decide : ∀ x ∈ " LIMIT ".data,
        x ∈ " LIMIT -0123456789".data) c hx),
        fun hx => h ((by decide : ∀ x ∈ "-0123456789".data,
          x ∈ " LIMIT -0123456789".data) c hx)⟩
  · refine not_mem_numClause " OFFSET " q.offset c ?_ hc
    rcases hoff with h | h
    · exact Or.inl h
    · exact Or.inr ⟨fun hx => h ((by decide : ∀ x ∈ " OFFSET ".data,
        x ∈ " OFFSET -0123456789".data) c hx),
        fun hx => h ((by decide : ∀ x ∈ "-0123456789".data,
          x ∈ " OFFSET -0123456789".data) c hx)⟩

/-- No occurrence of the character `c` in the rendered statement, provided
`c` occurs in none of the caller-supplied strings and, for each clause whose
fixed keyword text contains `c`, that clause's backing state is empty. -/
lemma not_mem_build (q : Query) (c : Char)
    (hu : ∀ s ∈ userStrings q, c ∉ s.data)
    (hfix : c ∉ "SELECT , FROM ".data)
    (hj : q.joins = [] ∨ c ∉ " JOIN  ON ".data)
    (hw : q.whereConds = [] ∨ c ∉ " WHERE  AND ".data)
    (hg : q.groupBy = [] ∨ c ∉ " GROUP BY , ".data)
    (hh : q.having = [] ∨ c ∉ " HAVING  AND ".data)
    (ho : q.orderBy = [] ∨ c ∉ " ORDER BY , ".data)
    (hl : q.limit = none ∨ c ∉ " LIMIT -0123456789".data)
    (hoff : q.offset = none ∨ c ∉ " OFFSET -0123456789".data) :
    c ∉ (QueryBuilder.build q).data := by
  intro hc
  simp only [QueryBuilder.build, String.data_append, List.mem_append] at hc
  rcases hc with (hc | hc) | hc
  · exact not_mem_buildHead q c hu hfix hj hc
  · refine not_mem_clauseText " WHERE " " AND " q.whereConds c
      (fun s hs => hu s (by simp [userStrings, hs])) ?_ hc
    rcases hw with h | h
    · exact Or.inl h
    · exact Or.inr ⟨fun hx => h ((by decide : ∀ x ∈ " WHERE ".data,
        x ∈ " WHERE  AND ".data) c hx),
        fun hx => h ((by decide : ∀ x ∈ " AND ".data, x ∈ " WHERE  AND ".data) c hx)⟩
  · exact not_mem_buildTail q c hu hg hh ho hl hoff hc

/-- A keyword containing a character that a string lacks is not an infix of
that string. -/
lemma not_infix_of_not_mem (kw s : List Char) (c : Char)
    (hc : c ∈ kw) (hs : c ∉ s) : ¬ kw <:+: s :=
  fun h => hs (h.subset hc)

lemma specOpFragment_isSome (f : String) (p : String × JsVal)
    (hrec : p.1 ∈ recognizedOps)
    (hwf : (p.1 = "in" ∨ p.1 = "notIn") → ∃ l, p.2 = JsVal.varr l) :
    (specOpFragment f p).isSome := by
  obtain ⟨op, v⟩ := p
  simp only [recognizedOps, List.mem_cons, List.not_mem_nil, or_false] at hrec
  rcases hrec with rfl | rfl | rfl | rfl | rfl | rfl | rfl | rfl <;>
    simp only [specOpFragment, Option.isSome_some]
  · obtain ⟨l, hl⟩ := hwf (Or.inl rfl)
    simp only at hl
    rw [hl]
    rfl
  · obtain ⟨l, hl⟩ := hwf (Or.inr rfl)
    simp only at hl
    rw [hl]
    rfl

lemma filterMap_length_eq (f : String) :
    ∀ (entries : List (String × JsVal)),
      (∀ p ∈ entries, p.1 ∈ recognizedOps) → WellShaped entries →
      (entries.filterMap (specOpFragment f)).length = entries.length
  | [], _, _ => rfl
  | p :: rest, hrec, hwf => by
    have hp := specOpFragment_isSome f p (hrec p (List.mem_cons_self _ _))
      (hwf p (List.mem_cons_self _ _))
    rw [List.filterMap_cons]
    cases hfp : specOpFragment f p with
    | none => rw [hfp] at hp; simp at hp
    | some frag =>
      simp only [List.length_cons,
        filterMap_length_eq f rest (fun x hx => hrec x (List.mem_cons_of_mem _ hx))
          (fun x hx => hwf x (List.mem_cons_of_mem _ hx))]

lemma lastPrimaryKey_mem :
    ∀ (attrs : List (String × AttrDef)) (acc : Option String) (pk : String),
      attrs.foldl (fun acc p => if attrPrimaryKey p.2 then some p.1 else acc) acc =
        some pk →
      (∃ d, (pk, d) ∈ attrs ∧ attrPrimaryKey d = true) ∨ acc = some pk
  | [], acc, pk, h => Or.inr h
  | (n, d) :: rest, acc, pk, h => by
    simp only [List.foldl_cons] at h
    rcases lastPrimaryKey_mem rest _ pk h with ⟨d', hd', hpk'⟩ | hacc
    · exact Or.inl ⟨d', List.mem_cons_of_mem _ hd', hpk'⟩
    · by_cases hd : attrPrimaryKey d
      · rw [if_pos hd, Option.some.injEq] at hacc
        exact Or.inl ⟨d, by rw [← hacc]; exact List.mem_cons_self _ _, hd⟩
      · rw [if_neg hd] at hacc
        exact Or.inr hacc

/-- Claim C1: for an OperatorMap whose tags are all recognized, `where`
pushes exactly one fragment per entry, in the map's iteration order,
rendered per the spec's operator table (`specOpFragment`); `build` joins the
accumulated fragments with `' AND '`; and `{age: {gte: 18, lte: 65}}`
contributes exactly `age >= '18' AND age <= '65'`. -/
theorem claim1_operator_map_rendering :
    (∀ (q : Query) (f : String) (entries : List (String × JsVal)),
      (∀ p ∈ entries, p.1 ∈ recognizedOps) → WellShaped entries →
      QueryBuilder.«where» (QueryBuilder.WhereArg.obj [(f, JsVal.vobj entries)]) q =
        Except.ok { q with
          whereConds := q.whereConds ++ entries.filterMap (specOpFragment f) } ∧
      (entries.filterMap (specOpFragment f)).length = entries.length) ∧
    (∀ q : Query, q.whereConds ≠ [] →
      QueryBuilder.build q =
        QueryBuilder.buildHead q ++ (" WHERE " ++ joinSep " AND " q.whereConds) ++
          QueryBuilder.buildTail q) ∧
    (∃ q' : Query,
      QueryBuilder.«where»
        (QueryBuilder.WhereArg.obj
          [("age", JsVal.vobj [("gte", JsVal.vnum 18), ("lte", JsVal.vnum 65)])])
        emptyQuery = Except.ok q' ∧
      q'.whereConds = ["age >= '18'", "age <= '65'"] ∧
      joinSep " AND " q'.whereConds = "age >= '18' AND age <= '65'") := by
  refine ⟨?_, build_where_decomp, ?_⟩
  · intro q f entries hrec hwf
    refine ⟨?_, filterMap_length_eq f entries hrec hwf⟩
    simp only [QueryBuilder.«where», QueryBuilder.whereEntries, QueryBuilder.whereEntry]
    rw [handleComplexCondition_eq f entries q hwf]
    rfl
  · exact ⟨_, rfl, rfl, rfl⟩

/-- Concrete instance of C1: a one-entry `gte` map on `age` pushes exactly
one fragment. -/
theorem claim1_witness :
    QueryBuilder.«where»
      (QueryBuilder.WhereArg.obj [("age", JsVal.vobj [("gte", JsVal.vnum 18)])])
      emptyQuery =
      Except.ok { emptyQuery with
        whereConds := emptyQuery.whereConds ++
          [(("gte", JsVal.vnum 18))].filterMap (specOpFragment "age") } ∧
    ([(("gte", JsVal.vnum 18))].filterMap (specOpFragment "age")).length = 1 :=
  claim1_operator_map_rendering.1 emptyQuery "age" [("gte", JsVal.vnum 18)]
    (by decide)
    (fun p hp h => by
      simp only [List.mem_singleton] at hp
      subst hp
      rcases h with h | h <;> simp at h)

/-- Claim C2: a scalar value renders as `f = 'v'` (uniformly single-quoted,
the coerced value spliced verbatim with no escaping), and an array value
renders as `f IN ('v1', 'v2', ...)` in input order; a value containing a
single quote is spliced unescaped. -/
theorem claim2_scalar_and_array_rendering :
    (∀ (q : Query) (f : String) (v : JsVal), isScalar v →
      QueryBuilder.«where» (QueryBuilder.WhereArg.obj [(f, v)]) q =
        Except.ok (QueryBuilder.pushWhere (f ++ " = '" ++ jsToString v ++ "'") q)) ∧
    (∀ (q : Query) (f : String) (l : List JsVal),
      QueryBuilder.«where» (QueryBuilder.WhereArg.obj [(f, JsVal.varr l)]) q =
        Except.ok (QueryBuilder.pushWhere
          (f ++ " IN (" ++ joinSep ", " (l.map (fun v => "'" ++ jsToString v ++ "'")) ++ ")")
          q)) ∧
    (∃ q' : Query,
      QueryBuilder.«where»
        (QueryBuilder.WhereArg.obj [("name", JsVal.vstr "O'Brien")]) emptyQuery =
        Except.ok q' ∧
      q'.whereConds = ["name = 'O'Brien'"]) := by
  refine ⟨?_, ?_, ⟨_, rfl, rfl⟩⟩
  · intro q f v hv
    simp only [QueryBuilder.«where», QueryBuilder.whereEntries]
    rw [whereEntry_scalar f v q hv]
    rfl
  · intro q f l
    simp only [QueryBuilder.«where», QueryBuilder.whereEntries]
    rw [whereEntry_array f l q]
    rfl

/-- Concrete instance of C2: the number `30` is quoted like any string. -/
theorem claim2_witness :
    QueryBuilder.«where» (QueryBuilder.WhereArg.obj [("age", JsVal.vnum 30)]) emptyQuery =
      Except.ok (QueryBuilder.pushWhere
        ("age" ++ " = '" ++ jsToString (JsVal.vnum 30) ++ "'") emptyQuery) :=
  claim2_scalar_and_array_rendering.1 emptyQuery "age" (JsVal.vnum 30) trivial

/-- Claim C5: an OperatorMap entry with an unrecognized tag is silently
dropped — no fragment, no error — while recognized entries of the same map
are still rendered (per `specOpFragment`, which maps unrecognized tags to
`none`). -/
theorem claim5_unrecognized_tags_dropped :
    (∀ (f op : String) (v : JsVal) (q : Query), op ∉ recognizedOps →
      QueryBuilder.handleComplexCondition f [(op, v)] q = Except.ok q) ∧
    (∀ (f : String) (entries : List (String × JsVal)) (q : Query),
      WellShaped entries →
      QueryBuilder.handleComplexCondition f entries q =
        Except.ok { q with
          whereConds := q.whereConds ++ entries.filterMap (specOpFragment f) }) ∧
    (∀ (f op : String) (v : JsVal), op ∉ recognizedOps →
      specOpFragment f (op, v) = none) ∧
    (∃ q' : Query,
      QueryBuilder.«where»
        (QueryBuilder.WhereArg.obj
          [("age", JsVal.vobj [("bogus", JsVal.vnum 1), ("gte", JsVal.vnum 18)])])
        emptyQuery = Except.ok q' ∧
      q'.whereConds = ["age >= '18'"]) := by
  refine ⟨?_, handleComplexCondition_eq, specOpFragment_unrecognized, ⟨_, rfl, rfl⟩⟩
  intro f op v q hop
  have hni : op ≠ "in" ∧ op ≠ "notIn" := by
    constructor <;> rintro rfl <;> exact hop (by decide)
  have hwf : WellShaped [(op, v)] := by
    intro p hp h
    simp only [List.mem_singleton] at hp
    subst hp
    rcases h with h | h
    · exact absurd h hni.1
    · exact absurd h hni.2
  rw [handleComplexCondition_eq f [(op, v)] q hwf, List.filterMap_cons,
    specOpFragment_unrecognized f op v hop]
  simp

/-- Concrete instance of C5: a single bogus entry leaves the builder state
unchanged and signals no error. -/
theorem claim5_witness :
    QueryBuilder.handleComplexCondition "age" [("bogus", JsVal.vnull)] emptyQuery =
      Except.ok emptyQuery :=
  claim5_unrecognized_tags_dropped.1 "age" "bogus" JsVal.vnull emptyQuery (by decide)

/-- Refutation of C3 as stated: a second `orderBy` call with an ARRAY
argument does not append — it replaces the accumulated sort keys, discarding
the earlier `a ASC`. -/
theorem claim3_counterexample :
    (QueryBuilder.orderBy (FieldsArg.str "a") "ASC" emptyQuery).orderBy = ["a ASC"] ∧
    (QueryBuilder.orderBy (FieldsArg.arr ["b DESC"]) "ASC"
      (QueryBuilder.orderBy (FieldsArg.str "a") "ASC" emptyQuery)).orderBy = ["b DESC"] ∧
    "a ASC" ∉ (QueryBuilder.orderBy (FieldsArg.arr ["b DESC"]) "ASC"
      (QueryBuilder.orderBy (FieldsArg.str "a") "ASC" emptyQuery)).orderBy := by
  refine ⟨rfl, rfl, ?_⟩
  decide

/-- Claim C3 (amended): `select`/`from`/`groupBy` replace prior state
(for `select`/`groupBy` whenever the argument is of a handled shape);
`where` and string-field `orderBy` append; but an array-field `orderBy`
replaces the accumulated sort keys. -/
theorem claim3_amended_replace_vs_append :
    (∀ (q q' : Query) (a : FieldsArg), a ≠ FieldsArg.other →
      (QueryBuilder.select a q).select = (QueryBuilder.select a q').select) ∧
    (∀ (q : Query) (t : String), (QueryBuilder.fromTable t q).fromTable = t) ∧
    (∀ (q q' : Query) (a : FieldsArg), a ≠ FieldsArg.other →
      (QueryBuilder.groupBy a q).groupBy = (QueryBuilder.groupBy a q').groupBy) ∧
    (∀ (c : QueryBuilder.WhereArg) (q q' : Query),
      QueryBuilder.«where» c q = Except.ok q' →
      ∃ t, q'.whereConds = q.whereConds ++ t) ∧
    (∀ (s d : String) (q : Query),
      (QueryBuilder.orderBy (FieldsArg.str s) d q).orderBy =
        q.orderBy ++ [s ++ " " ++ d]) ∧
    (∀ (l : List String) (d : String) (q q' : Query),
      (QueryBuilder.orderBy (FieldsArg.arr l) d q).orderBy =
        (QueryBuilder.orderBy (FieldsArg.arr l) d q').orderBy) := by
  refine ⟨?_, fun q t => rfl, ?_, where_conds, fun s d q => rfl, fun l d q q' => rfl⟩
  · intro q q' a ha
    cases a <;> simp [QueryBuilder.select] at ha ⊢
  · intro q q' a ha
    cases a <;> simp [QueryBuilder.groupBy] at ha ⊢

/-- Concrete instance of the amended C3: a repeated `select` forgets the
earlier column list, and a successful `where` call appends. -/
theorem claim3_witness :
    (QueryBuilder.select (FieldsArg.str "x")
      (QueryBuilder.select (FieldsArg.str "y") emptyQuery)).select =
      (QueryBuilder.select (FieldsArg.str "x") emptyQuery).select ∧
    ∃ t, (QueryBuilder.pushWhere "a = 'b'" emptyQuery).whereConds =
      emptyQuery.whereConds ++ t :=
  ⟨claim3_amended_replace_vs_append.1
      (QueryBuilder.select (FieldsArg.str "y") emptyQuery) emptyQuery
      (FieldsArg.str "x") (by simp),
    claim3_amended_replace_vs_append.2.2.2.1
      (QueryBuilder.WhereArg.str "a = 'b'") emptyQuery
      (QueryBuilder.pushWhere "a = 'b'" emptyQuery) rfl⟩

/-- Refutation of C4 as stated: with `select` never called, the stored
column list is empty (`[]`, not `['*']`), so the render is
`SELECT  FROM users` — not `SELECT * FROM users`. -/
theorem claim4_counterexample :
    QueryBuilder.build (QueryBuilder.fromTable "users" emptyQuery) =
      "SELECT  FROM users" ∧
    QueryBuilder.build (QueryBuilder.fromTable "users" emptyQuery) ≠
      "SELECT * FROM users" ∧
    emptyQuery.select = [] := by
  refine ⟨rfl, ?_, rfl⟩
  decide

/-- Claim C4 (amended): the builder's own default column list is empty and
renders `SELECT  FROM users`; the `*` default belongs to `Model.findAll`
(`options.attributes || '*'`), whose builder for option-free input renders
exactly `SELECT * FROM users`. -/
theorem claim4_amended_default_select :
    QueryBuilder.build (QueryBuilder.fromTable "users" emptyQuery) =
      "SELECT  FROM users" ∧
    (∃ q : Query,
      Model.findAllQuery "users"
        { attributes := none, whereArg := none, orderBy := none,
          limit := none, offset := none } = Except.ok q ∧
      QueryBuilder.build q = "SELECT * FROM users") :=
  ⟨rfl, _, rfl, rfl⟩

/-- Claim C6: `build` is a pure projection of the builder state — it leaves
the state untouched, and a second `build` on the unmodified state returns
the identical string. -/
theorem claim6_build_pure (q : Query) :
    (QueryBuilder.buildStep q).2 = q ∧
    (QueryBuilder.buildStep ((QueryBuilder.buildStep q).2)).1 =
      (QueryBuilder.buildStep q).1 :=
  ⟨rfl, rfl⟩

/-- Claim C7: with no accumulated WHERE fragments (and caller-supplied
strings free of the keyword's distinguishing character, as the trusted
identifier model of the spec assumes), the rendered statement contains no
`WHERE` at all; likewise for empty joins / GROUP BY / HAVING / ORDER BY,
and with everything empty the render is exactly the bare
`SELECT ... FROM ...` — no LIMIT/OFFSET text. -/
theorem claim7_omitted_clauses_absent (q : Query) :
    (q.whereConds = [] → (∀ s ∈ userStrings q, 'W' ∉ s.data) →
      ¬ ("WHERE".data <:+: (QueryBuilder.build q).data)) ∧
    (q.joins = [] → (∀ s ∈ userStrings q, 'J' ∉ s.data) →
      ¬ ("JOIN".data <:+: (QueryBuilder.build q).data)) ∧
    (q.groupBy = [] → (∀ s ∈ userStrings q, 'P' ∉ s.data) →
      ¬ ("GROUP BY".data <:+: (QueryBuilder.build q).data)) ∧
    (q.having = [] → (∀ s ∈ userStrings q, 'V' ∉ s.data) →
      ¬ ("HAVING".data <:+: (QueryBuilder.build q).data)) ∧
    (q.orderBy = [] → q.groupBy = [] → (∀ s ∈ userStrings q, 'Y' ∉ s.data) →
      ¬ ("ORDER BY".data <:+: (QueryBuilder.build q).data)) ∧
    (q.whereConds = [] → q.joins = [] → q.groupBy = [] → q.having = [] →
      q.orderBy = [] → q.limit = none → q.offset = none →
      QueryBuilder.build q =
        "SELECT " ++ joinSep ", " q.select ++ " FROM " ++ q.fromTable) := by
  refine ⟨?_, ?_, ?_, ?_, ?_, ?_⟩
  · intro hw hu
    exact not_infix_of_not_mem _ _ 'W' (by decide)
      (not_mem_build q 'W' hu (by decide) (Or.inr (by decide)) (Or.inl hw)
        (Or.inr (by decide)) (Or.inr (by decide)) (Or.inr (by decide))
        (Or.inr (by decide)) (Or.inr (by decide)))
  · intro hj hu
    exact not_infix_of_not_mem _ _ 'J' (by decide)
      (not_mem_build q 'J' hu (by decide) (Or.inl hj) (Or.inr (by decide))
        (Or.inr (by decide)) (Or.inr (by decide)) (Or.inr (by decide))
        (Or.inr (by decide)) (Or.inr (by decide)))
  · intro hg hu
    exact not_infix_of_not_mem _ _ 'P' (by decide)
      (not_mem_build q 'P' hu (by decide) (Or.inr (by decide)) (Or.inr (by decide))
        (Or.inl hg) (Or.inr (by decide)) (Or.inr (by decide))
        (Or.inr (by decide)) (Or.inr (by decide)))
  · intro hh hu
    exact not_infix_of_not_mem _ _ 'V' (by decide)
      (not_mem_build q 'V' hu (by decide) (Or.inr (by decide)) (Or.inr (by decide))
        (Or.inr (by decide)) (Or.inl hh) (Or.inr (by decide))
        (Or.inr (by decide)) (Or.inr (by decide)))
  · intro ho hg hu
    exact not_infix_of_not_mem _ _ 'Y' (by decide)
      (not_mem_build q 'Y' hu (by decide) (Or.inr (by decide)) (Or.inr (by decide))
        (Or.inl hg) (Or.inr (by decide)) (Or.inl ho)
        (Or.inr (by decide)) (Or.inr (by decide)))
  · intro hw hj hg hh ho hl hoff
    simp [QueryBuilder.build, QueryBuilder.buildHead, QueryBuilder.buildTail,
      hw, hj, hg, hh, ho, hl, hoff, strConcat]

/-- Concrete instance of C7: a bare `from('users')` with one selected column
renders with no `WHERE` keyword, and equals the bare SELECT/FROM text. -/
theorem claim7_witness :
    ¬ ("WHERE".data <:+:
      (QueryBuilder.build (QueryBuilder.fromTable "users"
        (QueryBuilder.select (FieldsArg.str "name") emptyQuery))).data) ∧
    QueryBuilder.build (QueryBuilder.fromTable "users"
        (QueryBuilder.select (FieldsArg.str "name") emptyQuery)) =
      "SELECT " ++ joinSep ", " ["name"] ++ " FROM " ++ "users" :=
  ⟨(claim7_omitted_clauses_absent _).1 rfl (by decide),
    (claim7_omitted_clauses_absent _).2.2.2.2.2 rfl rfl rfl rfl rfl rfl rfl⟩

/-- Claim C8: when the external client's `query` call fails with message
`e`, `Connection.query` re-signals a failure whose message is
`'Query execution failed: '` followed by `e`, after exactly one client call
(no retry) and without swallowing the failure. -/
theorem claim8_query_failure_wrapped {α : Type}
    (client : String → Except String α) (sql e : String)
    (h : client sql = Except.error e) :
    Connection.query (Except.ok ()) client sql =
      (Except.error ("Query execution failed: " ++ e), 1) := by
  simp [Connection.query, h]

/-- Concrete instance of C8: a client that rejects every statement. -/
theorem claim8_witness :
    Connection.query (Except.ok ())
      (fun _ => (Except.error "syntax error" : Except String Nat)) "INVALID SQL" =
      (Except.error ("Query execution failed: " ++ "syntax error"), 1) :=
  claim8_query_failure_wrapped (fun _ => Except.error "syntax error")
    "INVALID SQL" "syntax error" rfl

/-- Claim C9: `generateCreateTableSQL` always emits an ORDER BY clause whose
key follows the fixed precedence: the (last) attribute flagged `primaryKey`
— even when `options.orderBy` is set — else the truthy `options.orderBy`,
else the first attribute name. -/
theorem claim9_create_table_order_by (tbl : String)
    (attrs : List (String × AttrDef)) (opts : ModelOptions) (ine : Bool)
    (cols : List String) (h : Schema.genColumns attrs = Except.ok cols) :
    Schema.generateCreateTableSQL tbl attrs opts ine =
      Except.ok ("CREATE TABLE" ++ (if ine then " IF NOT EXISTS" else "") ++ " " ++
        tbl ++ " (\n  " ++ joinSep ",\n  " cols ++ "\n) ENGINE = " ++
        Schema.engineOf opts ++ "\n" ++ ("ORDER BY " ++ Schema.orderByKey attrs opts) ++
        Schema.settingsText opts) ∧
    (∀ pk, Schema.lastPrimaryKey attrs = some pk →
      Schema.orderByKey attrs opts = pk ∧
      ∃ d, (pk, d) ∈ attrs ∧ attrPrimaryKey d = true) ∧
    (Schema.lastPrimaryKey attrs = none →
      ∀ ob, Schema.truthyOrderBy opts = some ob →
        Schema.orderByKey attrs opts = ob) ∧
    (Schema.lastPrimaryKey attrs = none → Schema.truthyOrderBy opts = none →
      Schema.orderByKey attrs opts = Schema.firstColumnName attrs) := by
  refine ⟨?_, ?_, ?_, ?_⟩
  · unfold Schema.generateCreateTableSQL
    rw [h]
    rfl
  · intro pk hpk
    refine ⟨by simp [Schema.orderByKey, hpk], ?_⟩
    rcases lastPrimaryKey_mem attrs none pk hpk with hmem | hacc
    · exact hmem
    · cases hacc
  · intro hpk ob hob
    simp [Schema.orderByKey, hpk, hob]
  · intro hpk hob
    simp [Schema.orderByKey, hpk, hob]

/-- Concrete instance of C9: a primary-key attribute overrides an explicit
`orderBy: 'name'` option. -/
theorem claim9_witness :
    Schema.generateCreateTableSQL "users"
      [("id", AttrDef.objDef
          { type := some "UInt32", defaultValue := none, codec := none,
            comment := none, primaryKey := true, index := false }),
        ("name", AttrDef.strDef "String")]
      { engine := none, orderBy := some "name", settings := none } true
      = Except.ok ("CREATE TABLE" ++ (if true then " IF NOT EXISTS" else "") ++ " " ++
        "users" ++ " (\n  " ++ joinSep ",\n  " ["id UInt32", "name String"] ++
        "\n) ENGINE = " ++
        Schema.engineOf { engine := none, orderBy := some "name", settings := none } ++
        "\n" ++ ("ORDER BY " ++ Schema.orderByKey
          [("id", AttrDef.objDef
              { type := some "UInt32", defaultValue := none, codec := none,
                comment := none, primaryKey := true, index := false }),
            ("name", AttrDef.strDef "String")]
          { engine := none, orderBy := some "name", settings := none }) ++
        Schema.settingsText
          { engine := none, orderBy := some "name", settings := none }) ∧
    Schema.orderByKey
      [("id", AttrDef.objDef
          { type := some "UInt32", defaultValue := none, codec := none,
            comment := none, primaryKey := true, index := false }),
        ("name", AttrDef.strDef "String")]
      { engine := none, orderBy := some "name", settings := none } = "id" :=
  ⟨(claim9_create_table_order_by "users"
      [("id", AttrDef.objDef
          { type := some "UInt32", defaultValue := none, codec := none,
            comment := none, primaryKey := true, index := false }),
        ("name", AttrDef.strDef "String")]
      { engine := none, orderBy := some "name", settings := none } true
      ["id UInt32", "name String"] rfl).1,
    ((claim9_create_table_order_by "users"
      [("id", AttrDef.objDef
          { type := some "UInt32", defaultValue := none, codec := none,
            comment := none, primaryKey := true, index := false }),
        ("name", AttrDef.strDef "String")]
      { engine := none, orderBy := some "name", settings := none } true
      ["id UInt32", "name String"] rfl).2.1 "id" rfl).1⟩

/-- Claim C10: `findOne(options)` is exactly the optional first row of
`findAll` run with the same options but `limit` overridden to `1`, and is
`null` (`none`) — not an error and not a collection — when that result set
is empty. -/
theorem claim10_findOne_head (Row : Type)
    (exec : String → Except String (Option (List Row)))
    (tbl : String) (o : FindOptions) :
    Model.findOne exec tbl o =
      Except.map List.head? (Model.findAll exec tbl { o with limit := some 1 }) ∧
    (Model.findAll exec tbl { o with limit := some 1 } = Except.ok [] →
      Model.findOne exec tbl o = Except.ok none) := by
  have hmap : Model.findOne exec tbl o =
      Except.map List.head? (Model.findAll exec tbl { o with limit := some 1 }) := by
    unfold Model.findOne
    cases h : Model.findAll exec tbl { o with limit := some 1 } <;>
      simp [h, Except.map, Bind.bind, Except.bind, Pure.pure, Except.pure]
  exact ⟨hmap, fun h => by rw [hmap, h]; rfl⟩

/-- Concrete instance of C10: an execution returning an empty data set makes
`findOne` return `none`. -/
theorem claim10_witness :
    Model.findOne (fun _ => Except.ok (some ([] : List Nat))) "users"
      { attributes := none, whereArg := none, orderBy := none,
        limit := none, offset := none } = Except.ok none :=
  (claim10_findOne_head Nat (fun _ => Except.ok (some [])) "users"
    { attributes := none, whereArg := none, orderBy := none,
      limit := none, offset := none }).2 rfl

end ClickHouseORM
